import Mathlib

/-!
Verification development for the Snyk API chain script (`ignores.py`).

The script walks organizations → projects → per-project ignore data over
the Snyk REST/v1 APIs and flattens the ignore data for CSV export.  We
embed the pure content of the script shallowly:

* JSON values are modelled by the inductive type `Json`; Python dicts are
  association lists in insertion order (matching `dict` iteration order).
* Python truthiness (`if x:` / `if not x:`) is `pyTruthy`.
* Operations that can raise an uncaught Python exception (for instance
  `AttributeError` from calling `.get` on a non-dict) return
  `Except String _`, the error string naming the exception class.
* The HTTP transport is an oracle: a paginated fetch consumes a list of
  `PageResponse`s, the k-th GET receiving the k-th entry.  `.err` stands
  for any `requests.exceptions.RequestException` (transport failure or a
  `raise_for_status` on a non-2xx response).
-/

namespace SnykIgnores

/-- JSON values as returned by `response.json()`.  Numbers are modelled as
integers (no claim involves fractional values); objects are association
lists in insertion order, mirroring Python `dict` iteration order. -/
inductive Json where
  | null : Json
  | bool (b : Bool) : Json
  | num (n : Int) : Json
  | str (s : String) : Json
  | arr (elems : List Json) : Json
  | obj (fields : List (String × Json)) : Json

/-- Python truthiness of a JSON value: `None`, `False`, `0`, `""`, `[]`
and `{}` are falsy, everything else truthy. -/
def pyTruthy : Json → Bool
  | .null => false
  | .bool b => b
  | .num n => n != 0
  | .str s => s ≠ ""
  | .arr elems => !elems.isEmpty
  | .obj fields => !fields.isEmpty

mutual

/-- Python `repr` of a JSON-decoded value, as used for elements inside
containers when the container is converted to a string. -/
def pyRepr : Json → String
  | .null => "None"
  | .bool b => if b then "True" else "False"
  | .num n => toString n
  | .str s => "\x27" ++ s ++ "\x27"
  | .arr elems => "[" ++ String.intercalate ", " (pyReprList elems) ++ "]"
  | .obj fields => "\x7b" ++ String.intercalate ", " (pyReprFields fields) ++ "\x7d"

def pyReprList : List Json → List String
  | [] => []
  | j :: rest => pyRepr j :: pyReprList rest

def pyReprFields : List (String × Json) → List String
  | [] => []
  | (k, v) :: rest => ("\x27" ++ k ++ "\x27: " ++ pyRepr v) :: pyReprFields rest

end

/-- Python `str` of a JSON-decoded value (as interpolated by f-strings and
by `csv` when writing a cell): a string renders without quotes, containers
render via `repr` of their elements. -/
def pyStr : Json → String
  | .str s => s
  | j => pyRepr j

/-- Python `url.endswith(suffix)`.  (Defined over the character lists so
that it evaluates inside the kernel; Lean's own `String.endsWith` is
defined by well-founded recursion and does not reduce.) -/
def pyEndsWith (s suffix : String) : Bool :=
  List.isPrefixOf suffix.data.reverse s.data.reverse

/-- `d.get(k)` on a Python dict: the value of the first (only) binding of
`k`, when present. -/
def dictGet (fields : List (String × Json)) (k : String) : Option Json :=
  (fields.find? (fun p => p.1 == k)).map Prod.snd

/-- `d.get(k, default)`. -/
def dictGetD (fields : List (String × Json)) (k : String) (dflt : Json) : Json :=
  (dictGet fields k).getD dflt

/-! ### `flatten_ignores_data` (ignores.py lines 350–387) -/

/-- The flattened dictionary built by `flatten_ignores_data`: on every
path it holds exactly the keys `total_ignores` (an int) and
`ignore_details` (a string). -/
structure Flattened where
  total_ignores : Nat
  ignore_details : String
  deriving DecidableEq, Repr

/-- The body of the per-issue branch of `flatten_ignores_data`'s loop:
given `ignore_id` and `first_ignore = ignore_info[0]`, build the summary
string.  Python calls `.get` on `first_ignore`, which raises
`AttributeError` when it is not a dict. -/
def entry_summary (ignore_id : String) (first_ignore : Json) : Except String String :=
  match first_ignore with
  | .obj fields =>
    let reason := dictGetD fields "reason" (.str "No reason provided")
    let expires := dictGetD fields "expires" (.str "Never")
    let created := dictGetD fields "created" (.str "Unknown")
    .ok ("ID: " ++ ignore_id ++ ", Reason: " ++ pyStr reason ++
         ", Expires: " ++ pyStr expires ++ ", Created: " ++ pyStr created)
  | _ => .error "AttributeError"

/-- The `ignore_summaries` list accumulated by `flatten_ignores_data`:
one summary per `(ignore_id, ignore_info)` item whose value is a
non-empty list, built from the FIRST element of that list only.  For a
non-dict input the guarded loop is skipped and the list is empty. -/
def flatten_summaries (ignores_data : Json) : Except String (List String) :=
  match ignores_data with
  | .obj fields =>
    fields.foldlM (fun acc kv =>
      match kv.2 with
      | .arr (first_ignore :: _) => do
          let s ← entry_summary kv.1 first_ignore
          pure (acc ++ [s])
      | _ => pure acc) []
  | _ => .ok []

/-- `flatten_ignores_data(ignores_data)`: falsy input short-circuits to
`total_ignores = 0` with the fixed text; otherwise `total_ignores` is
`len(ignores_data)` when it is a dict (`0` otherwise) and
`ignore_details` joins the summaries with `"; "`, or is the fixed
no-detail text when no summary was produced. -/
def flatten_ignores_data (ignores_data : Json) : Except String Flattened :=
  if pyTruthy ignores_data = false then
    .ok ⟨0, "No ignores data available"⟩
  else do
    let total_ignores : Nat :=
      match ignores_data with
      | .obj fields => fields.length
      | _ => 0
    let summaries ← flatten_summaries ignores_data
    pure ⟨total_ignores,
      if summaries.isEmpty then "No detailed ignore information"
      else String.intercalate "; " summaries⟩

/-! ### Paginated fetching (ignores.py lines 34–148)

The transport is an oracle: a list of `PageResponse`s, the k-th GET of a
fetch receiving the k-th entry.  `.err` stands for any
`requests.exceptions.RequestException` — a transport failure, or the
`HTTPError` that `raise_for_status()` turns a non-2xx response into. -/

inductive PageResponse where
  | err : PageResponse
  | ok (body : Json) : PageResponse

/-- One GET issued by a paginated fetch: the URL requested and the query
parameters attached to it (`none` when `params=None` was passed). -/
structure Request where
  url : String
  sent : Option (List (String × Json))

/-- Result of running a paginated fetch against a response oracle.
`starved` means the oracle ran out of responses while the loop wanted to
issue another request (so the run is not determined by the given pages);
`crash e` is an uncaught Python exception `e`; `done entities log` is a
normal return of `entities` having issued the requests in `log`. -/
inductive FetchOutcome where
  | starved : FetchOutcome
  | crash (msg : String) : FetchOutcome
  | done (entities : List Json) (log : List Request) : FetchOutcome

/-- `all_xs.extend(data.get('data', []))`: a missing `data` key
contributes nothing; a list contributes its elements; a string is
iterated character by character and a dict by its keys (Python `extend`
accepts any iterable); anything else raises `TypeError`. -/
def extendData : Option Json → Except String (List Json)
  | none => .ok []
  | some (.arr elems) => .ok elems
  | some (.str s) => .ok (s.data.map (fun c => .str (String.mk [c])))
  | some (.obj fields) => .ok (fields.map (fun p => .str p.1))
  | some _ => .error "TypeError"

/-- `data.get('links', {}).get('next')`: a missing `links` key defaults
to `{}` whose `.get('next')` is `None`; a dict `links` yields its `next`
value (`None` when absent); a non-dict `links` value raises
`AttributeError`. -/
def linksNext (fields : List (String × Json)) : Except String Json :=
  match dictGet fields "links" with
  | none => .ok .null
  | some (.obj lfields) => .ok (dictGetD lfields "next" .null)
  | some _ => .error "AttributeError"

/-- The GET issued for `url`: parameters are attached exactly when the
URL ends with the endpoint suffix (`"/orgs"` / `"/projects"`), mirroring
`params=params if url.endswith(...) else None`. -/
def mkRequest (suffix : String) (params : List (String × Json)) (url : String) : Request :=
  ⟨url, if pyEndsWith url suffix then some params else none⟩

/-- Processing of one successful page body (a dict): the items appended
by `all_xs.extend(data.get('data', []))` and the `links.next` value
(`Json.null` when absent). -/
def pageStep (fields : List (String × Json)) : Except String (List Json × Json) := do
  let items ← extendData (dictGet fields "data")
  let next_path ← linksNext fields
  pure (items, next_path)

/-- The shared `while url:` loop of `get_organizations` and
`get_projects_for_org`.  A `RequestException` (`.err`) is caught and
makes the whole fetch `return []`, discarding what was already
collected.  A truthy `links.next` continues the loop at
`f"{self.base_url}{next_path}"`; a falsy one (absent, `None` or `""`)
ends it. -/
def paginateGo (base suffix : String) (params : List (String × Json)) :
    List PageResponse → String → List Json → List Request → FetchOutcome
  | [], _, _, _ => .starved
  | resp :: rest, url, acc, log =>
    match resp with
    | .err => .done [] (log ++ [mkRequest suffix params url])
    | .ok body =>
      match body with
      | .obj fields =>
        match pageStep fields with
        | .error e => .crash e
        | .ok (items, next_path) =>
          if pyTruthy next_path then
            paginateGo base suffix params rest (base ++ pyStr next_path) (acc ++ items)
              (log ++ [mkRequest suffix params url])
          else
            .done (acc ++ items) (log ++ [mkRequest suffix params url])
      | _ => .crash "AttributeError"

def base_url : String := "https://api.snyk.io"

/-- The query parameters of `get_organizations`: `version` and `limit`,
plus `group_id` when the given group id is truthy (Python
`if group_id:` — `None` and `""` are both falsy). -/
def orgsParams (group_id : Option String) : List (String × Json) :=
  [("version", .str "2024-10-15"), ("limit", .num 100)] ++
    (match group_id with
     | some g => if g = "" then [] else [("group_id", .str g)]
     | none => [])

/-- `get_organizations(group_id)` run against a response oracle. -/
def get_organizations (group_id : Option String) (pages : List PageResponse) : FetchOutcome :=
  paginateGo base_url "/orgs" (orgsParams group_id) pages (base_url ++ "/rest/orgs") [] []

/-- The query parameters of `get_projects_for_org`. -/
def projectsParams : List (String × Json) :=
  [("version", .str "2024-10-15"), ("limit", .num 100)]

/-- `get_projects_for_org(org_id)` run against a response oracle.  The
org id is interpolated into the first URL by an f-string, hence `pyStr`. -/
def get_projects_for_org (org_id : Json) (pages : List PageResponse) : FetchOutcome :=
  paginateGo base_url "/projects" projectsParams pages
    (base_url ++ "/rest/orgs/" ++ pyStr org_id ++ "/projects") [] []

/-- `get_project_ignores`: a single non-paginated GET; a
`RequestException` is caught and yields `{}`, otherwise the parsed body
is returned as-is. -/
def get_project_ignores (resp : PageResponse) : Json :=
  match resp with
  | .err => .obj []
  | .ok body => body

/-! ### `process_all_projects` (ignores.py lines 153–214)

The walker calls `get_organizations`, `get_projects_for_org` and
`get_project_ignores`, all of which catch their own transport errors and
always return normally (modelled above).  `Env` packages the values
those calls return during one run: `organizations` is what
`get_organizations(group_id)` returned, `projects i` what
`get_projects_for_org(i)` returned, and `ignores i p` what
`get_project_ignores(i, p)` returned (so `{}` for a project whose fetch
hit a transport error).  The `time.sleep(delay)` pacing has no effect on
any returned value and is not modelled. -/

structure Env where
  organizations : List Json
  projects : Json → List Json
  ignores : Json → Json → Json

/-- One element of the `results` list built by `process_all_projects`:
the dict `{'org_id': ..., 'org_name': ..., 'project_id': ...,
'project_name': ..., 'ignores': ...}`. -/
structure ResultRecord where
  org_id : Json
  org_name : Json
  project_id : Json
  project_name : Json
  ignores : Json

/-- The observable behaviour of one `process_all_projects` run: the
returned `results` plus, for the skip-claims, the org ids for which
`get_projects_for_org` was called and the (org id, project id) pairs for
which `get_project_ignores` was called. -/
structure WalkOutput where
  results : List ResultRecord
  projectFetches : List Json
  ignoreFetches : List (Json × Json)

/-- `e.get('id')` as evaluated on an organization or project entity:
`None` when absent; `AttributeError` when the entity is not a dict. -/
def entityId (e : Json) : Except String Json :=
  match e with
  | .obj fields => .ok ((dictGet fields "id").getD .null)
  | _ => .error "AttributeError"

/-- `e.get('attributes', {}).get('name', 'Unknown')`: `AttributeError`
when the entity, or a present `attributes` value, is not a dict. -/
def entityName (e : Json) : Except String Json :=
  match e with
  | .obj fields =>
    match dictGetD fields "attributes" (.obj []) with
    | .obj afields => .ok (dictGetD afields "name" (.str "Unknown"))
    | _ => .error "AttributeError"
  | _ => .error "AttributeError"

/-- The body of the inner `for project in projects:` loop.  Note the id
and name lookups happen before the `if not project_id: continue` check,
exactly as in the source. -/
def processProject (env : Env) (org_id org_name : Json) (acc : WalkOutput) (project : Json) :
    Except String WalkOutput := do
  let project_id ← entityId project
  let project_name ← entityName project
  if pyTruthy project_id = false then
    pure acc
  else
    pure { results := acc.results ++
             [⟨org_id, org_name, project_id, project_name, env.ignores org_id project_id⟩],
           projectFetches := acc.projectFetches,
           ignoreFetches := acc.ignoreFetches ++ [(org_id, project_id)] }

/-- The body of the outer `for org in organizations:` loop: skip orgs
with a falsy id before fetching their projects. -/
def processOrg (env : Env) (acc : WalkOutput) (org : Json) : Except String WalkOutput := do
  let org_id ← entityId org
  let org_name ← entityName org
  if pyTruthy org_id = false then
    pure acc
  else
    let ps := env.projects org_id
    let acc := { acc with projectFetches := acc.projectFetches ++ [org_id] }
    ps.foldlM (processProject env org_id org_name) acc

/-- `process_all_projects`: early `return []` when no organizations were
found, otherwise the nested accumulation loop. -/
def process_all_projects (env : Env) : Except String WalkOutput :=
  if env.organizations.isEmpty then
    .ok ⟨[], [], []⟩
  else
    env.organizations.foldlM (processOrg env) ⟨[], [], []⟩

/-! Spec-side total versions of the entity field lookups, used to state
the characterization of `process_all_projects` on well-shaped inputs. -/

/-- An entity on which the id/name lookups cannot raise: a dict whose
`attributes`, when present, is itself a dict. -/
def entityOk : Json → Bool
  | .obj fields =>
    match dictGet fields "attributes" with
    | none => true
    | some (.obj _) => true
    | some _ => false
  | _ => false

/-- Total version of `entityId` (meaningful on `entityOk` entities). -/
def idVal : Json → Json
  | .obj fields => (dictGet fields "id").getD .null
  | _ => .null

/-- Total version of `entityName` (meaningful on `entityOk` entities). -/
def nameVal : Json → Json
  | .obj fields =>
    match dictGetD fields "attributes" (.obj []) with
    | .obj afields => dictGetD afields "name" (.str "Unknown")
    | _ => .str "Unknown"
  | _ => .str "Unknown"

/-- Every entity the walker will touch is well-shaped (decidable, so
concrete environments can discharge it by evaluation). -/
def envWF (env : Env) : Bool :=
  env.organizations.all (fun o => entityOk o && (env.projects (idVal o)).all entityOk)

/-- The organizations that survive the `if not org_id: continue` check. -/
def validOrgs (env : Env) : List Json :=
  env.organizations.filter (fun o => pyTruthy (idVal o))

/-- The projects of `o` that survive `if not project_id: continue`. -/
def validProjects (env : Env) (o : Json) : List Json :=
  (env.projects (idVal o)).filter (fun p => pyTruthy (idVal p))

/-- The result entry appended for one valid (org, project) pair. -/
def mkRecord (env : Env) (o p : Json) : ResultRecord :=
  ⟨idVal o, nameVal o, idVal p, nameVal p, env.ignores (idVal o) (idVal p)⟩

/-- The canonical value of `results`: one record per valid pair, in
discovery order. -/
def specResults (env : Env) : List ResultRecord :=
  (validOrgs env).flatMap (fun o => (validProjects env o).map (mkRecord env o))

/-- The org ids for which a project fetch is issued. -/
def specProjectFetches (env : Env) : List Json :=
  (validOrgs env).map idVal

/-- The (org id, project id) pairs for which an ignores fetch is issued. -/
def specIgnoreFetches (env : Env) : List (Json × Json) :=
  (validOrgs env).flatMap (fun o => (validProjects env o).map (fun p => (idVal o, idVal p)))

/-! ### `export_to_csv` (ignores.py lines 390–441) -/

def fieldnames : List String :=
  ["org_id", "org_name", "project_id", "project_name", "total_ignores", "ignore_details"]

/-- The CSV cells written for one result (in `fieldnames` order); the
`csv` writer stringifies non-string values.  Flattening the ignores data
can raise (propagated to `export_to_csv`'s `except` clause). -/
def csv_row (r : ResultRecord) : Except String (List String) := do
  let flattened ← flatten_ignores_data r.ignores
  pure [pyStr r.org_id, pyStr r.org_name, pyStr r.project_id, pyStr r.project_name,
        toString flattened.total_ignores, flattened.ignore_details]

/-- The row-writing loop: rows are flushed one by one; an exception while
building a row is caught by `export_to_csv` and leaves the rows already
written in the file. -/
def write_rows (rs : List ResultRecord) (written : List (List String)) :
    Bool × List (List String) :=
  match rs with
  | [] => (true, written)
  | r :: rest =>
    match csv_row r with
    | .error _ => (false, written)
    | .ok row => write_rows rest (written ++ [row])

/-- `export_to_csv(results, filename)`: returns whether the export
succeeded together with the rows written to the file (header row
included).  An empty input returns `False` before opening the file, so
nothing at all is written. -/
def export_to_csv (results : List ResultRecord) : Bool × List (List String) :=
  if results.isEmpty then (false, [])
  else write_rows results [fieldnames]

/-! ### Spec-side descriptions used to state the claims -/

/-- A well-shaped page as described by the pagination contract: a `data`
array of entities and an optional `links.next` value (`none` when the
response omits `links` entirely; `some (.str "")` when the server returns
an empty next link). -/
structure GoodPage where
  data : List Json
  next : Option Json

/-- The JSON body such a page decodes to. -/
def GoodPage.body (p : GoodPage) : Json :=
  .obj ([("data", .arr p.data)] ++
    (match p.next with
     | some j => [("links", .obj [("next", j)])]
     | none => []))

/-- The `links.next` value the loop sees for this page. -/
def GoodPage.nextVal (p : GoodPage) : Json := p.next.getD .null

/-- The response oracle for a run of well-shaped pages (possibly followed
by junk the loop should never request). -/
def goodPages (gps : List GoodPage) (extra : List PageResponse) : List PageResponse :=
  gps.map (fun p => .ok p.body) ++ extra

/-- The pages the loop actually fetches: everything up to and including
the first page whose `links.next` is falsy. -/
def consumedPages : List GoodPage → List GoodPage
  | [] => []
  | p :: rest => if pyTruthy p.nextVal then p :: consumedPages rest else [p]

/-- An item of a raw ignore set whose value is a non-empty list — exactly
the items for which `flatten_ignores_data`'s loop emits a summary. -/
def entryHasList : String × Json → Bool := fun kv =>
  match kv.2 with
  | .arr (_ :: _) => true
  | _ => false

/-- An item on which the loop body cannot raise: when its value is a
non-empty list, the first element is a dict. -/
def entryHeadOk : String × Json → Bool := fun kv =>
  match kv.2 with
  | .arr (first_ignore :: _) =>
    match first_ignore with
    | .obj _ => true
    | _ => false
  | _ => true

/-- The canonical summaries list: one summary per item with a non-empty
list value, built from its first element. -/
def okSummaries (fields : List (String × Json)) : List String :=
  fields.filterMap (fun kv =>
    match kv.2 with
    | .arr (first_ignore :: _) => (entry_summary kv.1 first_ignore).toOption
    | _ => none)

/-! ### Concrete sample environments used for witnesses and counterexamples -/

/-- One valid organization owning two valid projects, with empty ignore
data everywhere. -/
def envTwoProjects : Env where
  organizations := [.obj [("id", .str "o1"), ("attributes", .obj [("name", .str "O")])]]
  projects := fun oid =>
    match oid with
    | .str "o1" => [.obj [("id", .str "p1")], .obj [("id", .str "p2")]]
    | _ => []
  ignores := fun _ _ => .obj []

/-- One valid organization owning two valid projects; the ignores fetch
for `p1` hits a transport error (so `get_project_ignores` returns `{}`)
while the one for `p2` succeeds. -/
def envErrFetch : Env where
  organizations := [.obj [("id", .str "o1")]]
  projects := fun oid =>
    match oid with
    | .str "o1" => [.obj [("id", .str "p1")], .obj [("id", .str "p2")]]
    | _ => []
  ignores := fun _ pid =>
    match pid with
    | .str "p1" => get_project_ignores .err
    | _ => get_project_ignores (.ok (.obj [("VULN-1", .arr [.obj [("reason", .str "r")]])]))

/-- A second failed-fetch environment (distinct concrete data). -/
def envErrFetch2 : Env where
  organizations := [.obj [("id", .str "o2")]]
  projects := fun oid =>
    match oid with
    | .str "o2" => [.obj [("id", .str "q1")], .obj [("id", .str "q2")]]
    | _ => []
  ignores := fun _ pid =>
    match pid with
    | .str "q1" => get_project_ignores .err
    | _ => get_project_ignores (.ok (.obj [("V", .arr [.obj []])]))

/-- The empty discovery: no organizations at all. -/
def envNoOrgs : Env where
  organizations := []
  projects := fun _ => []
  ignores := fun _ _ => .obj []

/-- One organization entity that lacks an id AND carries a non-dict
`attributes` value, on which the name lookup raises. -/
def envBadOrg : Env where
  organizations := [.obj [("attributes", .num 5)]]
  projects := fun _ => []
  ignores := fun _ _ => .obj []

/-- A valid org plus an id-less (but well-shaped) org; the valid org owns
an id-less project and a valid one. -/
def envSkip : Env where
  organizations := [.obj [("id", .str "o1")],
    .obj [("attributes", .obj [("name", .str "NoId")])]]
  projects := fun oid =>
    match oid with
    | .str "o1" => [.obj [], .obj [("id", .str "p1")]]
    | _ => []
  ignores := fun _ _ => .obj []

/-! ## Helper lemmas -/

theorem except_ok_bind {α β : Type} (a : α) (f : α → Except String β) :
    (Except.ok a >>= f : Except String β) = f a := rfl

theorem except_pure_eq {α : Type} (a : α) : (pure a : Except String α) = Except.ok a := rfl

/-- On well-shaped input the flattener loop collects exactly the
canonical summaries. -/
theorem flatten_summaries_obj (fields : List (String × Json))
    (h : fields.all entryHeadOk = true) :
    flatten_summaries (.obj fields) = .ok (okSummaries fields) := by
  show fields.foldlM _ [] = _
  suffices H : ∀ acc : List String, fields.all entryHeadOk = true →
      (fields.foldlM (fun acc kv =>
        match kv.2 with
        | .arr (first_ignore :: _) => do
            let s ← entry_summary kv.1 first_ignore
            pure (acc ++ [s])
        | _ => pure acc) acc : Except String (List String)) = .ok (acc ++ okSummaries fields) by
    simpa using H [] h
  clear h
  induction fields with
  | nil =>
    intro acc _
    rw [List.foldlM_nil]
    show Except.ok acc = _
    simp [okSummaries]
  | cons kv rest ih =>
    rintro acc h
    simp only [List.all_cons, Bool.and_eq_true] at h
    obtain ⟨h1, h2⟩ := h
    obtain ⟨k, v⟩ := kv
    rw [List.foldlM_cons]
    match v with
    | .null | .bool _ | .num _ | .str _ | .obj _ | .arr [] =>
      exact ih acc h2
    | .arr (first_ignore :: tl) =>
      match first_ignore, h1 with
      | .obj ffields, _ =>
        show ((fun s => acc ++ [s]) <$> entry_summary k (.obj ffields) >>= _ :
          Except String (List String)) = _
        rw [show entry_summary k (.obj ffields) = .ok _ from rfl]
        rw [Except.map_ok]
        show List.foldlM _ _ rest = _
        rw [ih _ h2]
        simp [okSummaries, entry_summary, Except.toOption]

/-- One summary per item whose value is a non-empty list. -/
theorem okSummaries_length (fields : List (String × Json))
    (h : fields.all entryHeadOk = true) :
    (okSummaries fields).length = (fields.filter entryHasList).length := by
  induction fields with
  | nil => rfl
  | cons kv rest ih =>
    simp only [List.all_cons, Bool.and_eq_true] at h
    obtain ⟨h1, h2⟩ := h
    obtain ⟨k, v⟩ := kv
    match v with
    | .null | .bool _ | .num _ | .str _ | .obj _ | .arr [] =>
      simpa [okSummaries, entryHasList, List.filterMap_cons, List.filter_cons] using ih h2
    | .arr (first_ignore :: tl) =>
      match first_ignore, h1 with
      | .obj ffields, _ =>
        simpa [okSummaries, entryHasList, entry_summary, Except.toOption,
          List.filterMap_cons, List.filter_cons] using ih h2

/-- Whenever a paginated fetch returns normally, its request log extends
the initial one by at most one entry per available response, and if any
consumed response was a transport error the returned entity list is
empty (the `except` clause ran `return []`). -/
theorem paginateGo_err_empty (base suffix : String) (params : List (String × Json))
    (pages : List PageResponse) :
    ∀ (url : String) (acc : List Json) (log : List Request) ents log',
      paginateGo base suffix params pages url acc log = .done ents log' →
      ∃ δ, log' = log ++ δ ∧ δ.length ≤ pages.length ∧
        (PageResponse.err ∈ List.take δ.length pages → ents = []) := by
  induction pages with
  | nil =>
    intro url acc log ents log' h
    simp [paginateGo] at h
  | cons resp rest ih =>
    intro url acc log ents log' h
    cases resp with
    | err =>
      simp only [paginateGo] at h
      cases h
      refine ⟨[mkRequest suffix params url], rfl, by simp, fun _ => rfl⟩
    | ok body =>
      cases body with
      | null => simp only [paginateGo] at h; cases h
      | bool b => simp only [paginateGo] at h; cases h
      | num n => simp only [paginateGo] at h; cases h
      | str s => simp only [paginateGo] at h; cases h
      | arr elems => simp only [paginateGo] at h; cases h
      | obj fields =>
        simp only [paginateGo] at h
        cases hps : pageStep fields with
        | error e => rw [hps] at h; cases h
        | ok pr =>
          obtain ⟨items, next_path⟩ := pr
          rw [hps] at h
          by_cases ht : pyTruthy next_path = true
          · simp only [ht, if_true] at h
            obtain ⟨δ, hδ, hlen, herr⟩ := ih _ _ _ _ _ h
            refine ⟨mkRequest suffix params url :: δ, by simpa using hδ,
              by simpa using Nat.succ_le_succ hlen, ?_⟩
            intro hmem
            simp only [List.length_cons, List.take_succ_cons, List.mem_cons] at hmem
            rcases hmem with h1 | h2
            · cases h1
            · exact herr h2
          · simp only [ht, if_false] at h
            cases h
            refine ⟨[mkRequest suffix params url], rfl, by simp, ?_⟩
            intro hmem
            simp at hmem

/-- Every request a paginated fetch logs carries the query parameters
exactly when its URL ends with the endpoint suffix. -/
theorem paginateGo_params (base suffix : String) (params : List (String × Json))
    (pages : List PageResponse) :
    ∀ (url : String) (acc : List Json) (log : List Request) ents log',
      (∀ r ∈ log, r.sent = if pyEndsWith r.url suffix then some params else none) →
      paginateGo base suffix params pages url acc log = .done ents log' →
      ∀ r ∈ log', r.sent = if pyEndsWith r.url suffix then some params else none := by
  induction pages with
  | nil =>
    intro url acc log ents log' hinv h
    simp [paginateGo] at h
  | cons resp rest ih =>
    intro url acc log ents log' hinv h
    have hstep : ∀ r ∈ log ++ [mkRequest suffix params url],
        r.sent = if pyEndsWith r.url suffix then some params else none := by
      intro r hr
      rcases List.mem_append.mp hr with hr | hr
      · exact hinv r hr
      · rcases List.mem_singleton.mp hr with rfl
        rfl
    cases resp with
    | err =>
      simp only [paginateGo] at h
      cases h
      exact hstep
    | ok body =>
      cases body with
      | null => simp only [paginateGo] at h; cases h
      | bool b => simp only [paginateGo] at h; cases h
      | num n => simp only [paginateGo] at h; cases h
      | str s => simp only [paginateGo] at h; cases h
      | arr elems => simp only [paginateGo] at h; cases h
      | obj fields =>
        simp only [paginateGo] at h
        cases hps : pageStep fields with
        | error e => rw [hps] at h; cases h
        | ok pr =>
          obtain ⟨items, next_path⟩ := pr
          rw [hps] at h
          by_cases ht : pyTruthy next_path = true
          · simp only [ht, if_true] at h
            exact ih _ _ _ _ _ hstep h
          · simp only [ht, if_false] at h
            cases h
            exact hstep

/-- The first logged request of a normally-returning fetch is the one
built for the initial URL. -/
theorem paginateGo_log_head (base suffix : String) (params : List (String × Json))
    (resp : PageResponse) (rest : List PageResponse) :
    ∀ (url : String) (acc : List Json) (log : List Request) ents log',
      paginateGo base suffix params (resp :: rest) url acc log = .done ents log' →
      ∃ tail, log' = log ++ mkRequest suffix params url :: tail := by
  intro url acc log ents log' h
  cases resp with
  | err =>
    simp only [paginateGo] at h
    cases h
    exact ⟨[], rfl⟩
  | ok body =>
    cases body with
    | null => simp only [paginateGo] at h; cases h
    | bool b => simp only [paginateGo] at h; cases h
    | num n => simp only [paginateGo] at h; cases h
    | str s => simp only [paginateGo] at h; cases h
    | arr elems => simp only [paginateGo] at h; cases h
    | obj fields =>
      simp only [paginateGo] at h
      cases hps : pageStep fields with
      | error e => rw [hps] at h; cases h
      | ok pr =>
        obtain ⟨items, next_path⟩ := pr
        rw [hps] at h
        by_cases ht : pyTruthy next_path = true
        · simp only [ht, if_true] at h
          obtain ⟨δ, hδ, -, -⟩ := paginateGo_err_empty base suffix params rest _ _ _ _ _ h
          exact ⟨δ, by simpa using hδ⟩
        · simp only [ht, if_false] at h
          cases h
          exact ⟨[], rfl⟩

/-- A well-shaped page body parses to its data items and next link. -/
theorem pageStep_goodBody (p : GoodPage) :
    ∃ bf, p.body = .obj bf ∧ pageStep bf = .ok (p.data, p.nextVal) := by
  cases hn : p.next with
  | none =>
    refine ⟨[("data", .arr p.data)], by simp [GoodPage.body, hn], ?_⟩
    simp only [GoodPage.nextVal, hn, Option.getD_none]
    rfl
  | some j =>
    refine ⟨[("data", .arr p.data), ("links", .obj [("next", j)])],
      by simp [GoodPage.body, hn], ?_⟩
    simp only [GoodPage.nextVal, hn, Option.getD_some]
    rfl

/-- Running the loop over well-shaped pages, one of which ends the
chain, accumulates exactly the data of the consumed pages — regardless
of anything placed after them in the oracle. -/
theorem paginateGo_good (base suffix : String) (params : List (String × Json))
    (gps : List GoodPage) :
    ∀ (extra : List PageResponse) (url : String) (acc : List Json) (log : List Request),
      (∃ p ∈ gps, pyTruthy p.nextVal = false) →
      ∃ log', paginateGo base suffix params (goodPages gps extra) url acc log =
          .done (acc ++ (consumedPages gps).flatMap GoodPage.data) log' ∧
        log'.length = log.length + (consumedPages gps).length := by
  induction gps with
  | nil =>
    rintro extra url acc log ⟨p, hp, -⟩
    cases hp
  | cons p rest ih =>
    rintro extra url acc log ⟨q, hq, hqf⟩
    obtain ⟨bf, hbf, hps⟩ := pageStep_goodBody p
    have hgp : goodPages (p :: rest) extra = .ok p.body :: goodPages rest extra := by
      simp [goodPages]
    rw [hgp, hbf]
    by_cases ht : pyTruthy p.nextVal = true
    · have hqrest : q ∈ rest := by
        rcases List.mem_cons.mp hq with rfl | h
        · rw [hqf] at ht; cases ht
        · exact h
      obtain ⟨log', hrun, hlen⟩ := ih extra (base ++ pyStr p.nextVal) (acc ++ p.data)
        (log ++ [mkRequest suffix params url]) ⟨q, hqrest, hqf⟩
      refine ⟨log', ?_, ?_⟩
      · show paginateGo base suffix params (.ok (.obj bf) :: goodPages rest extra) url acc log = _
        simp only [paginateGo, hps, ht, if_true]
        rw [hrun]
        simp [consumedPages, ht, List.append_assoc]
      · rw [hlen]
        simp [consumedPages, ht]
        omega
    · refine ⟨log ++ [mkRequest suffix params url], ?_, ?_⟩
      · show paginateGo base suffix params (.ok (.obj bf) :: goodPages rest extra) url acc log = _
        simp only [paginateGo, hps, ht, if_false]
        simp [consumedPages, ht]
      · simp [consumedPages, ht]

/-- On a well-shaped entity the id lookup returns its total version. -/
theorem entityId_of_ok (e : Json) (h : entityOk e = true) : entityId e = .ok (idVal e) := by
  cases e with
  | obj fields => rfl
  | null => simp [entityOk] at h
  | bool b => simp [entityOk] at h
  | num n => simp [entityOk] at h
  | str s => simp [entityOk] at h
  | arr elems => simp [entityOk] at h

/-- On a well-shaped entity the name lookup returns its total version. -/
theorem entityName_of_ok (e : Json) (h : entityOk e = true) :
    entityName e = .ok (nameVal e) := by
  cases e with
  | null => simp [entityOk] at h
  | bool b => simp [entityOk] at h
  | num n => simp [entityOk] at h
  | str s => simp [entityOk] at h
  | arr elems => simp [entityOk] at h
  | obj fields =>
    cases ha : dictGet fields "attributes" with
    | none => simp [entityName, nameVal, dictGetD, ha]
    | some a =>
      cases a with
      | obj afields => simp [entityName, nameVal, dictGetD, ha]
      | null => simp [entityOk, ha] at h
      | bool b => simp [entityOk, ha] at h
      | num n => simp [entityOk, ha] at h
      | str s => simp [entityOk, ha] at h
      | arr elems => simp [entityOk, ha] at h

/-- The inner project loop appends one record and one ignores fetch per
valid project, in order. -/
theorem processProject_fold (env : Env) (org_id org_name : Json) :
    ∀ (ps : List Json) (acc : WalkOutput), ps.all entityOk = true →
      ps.foldlM (processProject env org_id org_name) acc = .ok
        ⟨acc.results ++ (ps.filter (fun p => pyTruthy (idVal p))).map
            (fun p => ⟨org_id, org_name, idVal p, nameVal p, env.ignores org_id (idVal p)⟩),
         acc.projectFetches,
         acc.ignoreFetches ++ (ps.filter (fun p => pyTruthy (idVal p))).map
            (fun p => (org_id, idVal p))⟩ := by
  intro ps
  induction ps with
  | nil =>
    intro acc _
    simp only [List.foldlM_nil, List.filter_nil, List.map_nil, List.append_nil]
    rfl
  | cons p rest ih =>
    intro acc h
    simp only [List.all_cons, Bool.and_eq_true] at h
    obtain ⟨h1, h2⟩ := h
    rw [List.foldlM_cons]
    simp only [processProject, entityId_of_ok p h1, entityName_of_ok p h1,
      except_ok_bind, except_pure_eq]
    by_cases ht : pyTruthy (idVal p) = true
    · simp only [ht, Bool.true_eq_false, if_false, except_ok_bind]
      rw [ih _ h2]
      simp [List.filter_cons, ht, List.append_assoc]
    · have ht' : pyTruthy (idVal p) = false := by
        cases hv : pyTruthy (idVal p)
        · rfl
        · exact absurd hv ht
      simp only [ht', if_true, except_ok_bind]
      rw [ih _ h2]
      simp [List.filter_cons, ht']

/-- The outer organization loop: valid orgs each contribute one project
fetch and their valid projects' records, in order. -/
theorem processOrg_fold (env : Env) :
    ∀ (os : List Json) (acc : WalkOutput),
      os.all (fun o => entityOk o && (env.projects (idVal o)).all entityOk) = true →
      os.foldlM (processOrg env) acc = .ok
        ⟨acc.results ++ (os.filter (fun o => pyTruthy (idVal o))).flatMap
            (fun o => ((env.projects (idVal o)).filter (fun p => pyTruthy (idVal p))).map
              (fun p => ⟨idVal o, nameVal o, idVal p, nameVal p, env.ignores (idVal o) (idVal p)⟩)),
         acc.projectFetches ++ (os.filter (fun o => pyTruthy (idVal o))).map idVal,
         acc.ignoreFetches ++ (os.filter (fun o => pyTruthy (idVal o))).flatMap
            (fun o => ((env.projects (idVal o)).filter (fun p => pyTruthy (idVal p))).map
              (fun p => (idVal o, idVal p)))⟩ := by
  intro os
  induction os with
  | nil =>
    intro acc _
    simp only [List.foldlM_nil, List.filter_nil, List.map_nil, List.flatMap_nil,
      List.append_nil]
    rfl
  | cons o rest ih =>
    intro acc h
    simp only [List.all_cons, Bool.and_eq_true] at h
    obtain ⟨⟨h1, hps⟩, h2⟩ := h
    rw [List.foldlM_cons]
    simp only [processOrg, entityId_of_ok o h1, entityName_of_ok o h1, except_ok_bind]
    by_cases ht : pyTruthy (idVal o) = true
    · simp only [ht, Bool.true_eq_false, if_false]
      rw [processProject_fold env (idVal o) (nameVal o) (env.projects (idVal o)) _ hps]
      rw [except_ok_bind]
      rw [ih _ h2]
      simp [List.filter_cons, ht, List.flatMap_cons, List.append_assoc]
    · have ht' : pyTruthy (idVal o) = false := by
        cases hv : pyTruthy (idVal o)
        · rfl
        · exact absurd hv ht
      simp only [ht', if_true, except_ok_bind, except_pure_eq]
      rw [ih _ h2]
      simp [List.filter_cons, ht']

/-- Full characterization of one `process_all_projects` run on
well-shaped entities. -/
theorem process_all_spec (env : Env) (h : envWF env = true) :
    process_all_projects env =
      .ok ⟨specResults env, specProjectFetches env, specIgnoreFetches env⟩ := by
  unfold process_all_projects
  by_cases he : env.organizations.isEmpty
  · have hnil : env.organizations = [] := List.isEmpty_iff.mp he
    simp [he, specResults, specProjectFetches, specIgnoreFetches, validOrgs, hnil]
  · simp only [he, if_false]
    rw [processOrg_fold env env.organizations ⟨[], [], []⟩ h]
    simp [specResults, specProjectFetches, specIgnoreFetches, validOrgs, validProjects]
    rfl

/-- The number of canonical records is the total count of valid projects
across valid organizations. -/
theorem specResults_length (env : Env) :
    (specResults env).length =
      ((validOrgs env).map (fun o => (validProjects env o).length)).sum := by
  rw [specResults, List.length_flatMap]
  induction validOrgs env with
  | nil => rfl
  | cons o os ih =>
    simp only [List.map_cons, List.sum_cons, ih]
    simp [List.length_map]

/-! ## Claim theorems -/

/-- Claim C1, counterexample.  An issue with two entries, each carrying a
wildcard-keyed detail payload, produces ONE summary record (built from
the first entry's top level, not from the wildcard payload), where the
claim requires two; and an issue whose single entry has no wildcard
detail still produces a record, where the claim requires it skipped. -/
theorem C1_counterexample :
    flatten_summaries (.obj [("ISSUE-1", .arr
      [.obj [("*", .obj [("reason", .str "r1")])],
       .obj [("*", .obj [("reason", .str "r2")])]])]) =
      .ok ["ID: ISSUE-1, Reason: No reason provided, Expires: Never, Created: Unknown"] ∧
    (1 : Nat) ≠ 2 ∧
    flatten_summaries (.obj [("ISSUE-2", .arr [.obj []])]) =
      .ok ["ID: ISSUE-2, Reason: No reason provided, Expires: Never, Created: Unknown"] ∧
    (1 : Nat) ≠ 0 :=
  ⟨rfl, by decide, rfl, by decide⟩

/-- Claim C1, amended: the flattener emits exactly one summary record per
issue identifier whose value is a non-empty list, built from the FIRST
entry only; the wildcard key is never consulted, entries beyond the
first never add records, and issues whose value is not a non-empty list
are skipped without error. -/
theorem C1_amended_one_summary_per_issue (fields : List (String × Json))
    (h : fields.all entryHeadOk = true) :
    ∃ summaries, flatten_summaries (.obj fields) = .ok summaries ∧
      summaries.length = (fields.filter entryHasList).length :=
  ⟨okSummaries fields, flatten_summaries_obj fields h, okSummaries_length fields h⟩

/-- Claim C1 witness: a two-entry issue and a non-list issue give exactly
one summary. -/
theorem C1_amended_witness :
    ∃ summaries, flatten_summaries (.obj
        [("ISSUE-1", .arr [.obj [], .obj []]), ("ISSUE-2", .str "x")]) = .ok summaries ∧
      summaries.length =
        ([("ISSUE-1", Json.arr [.obj [], .obj []]), ("ISSUE-2", Json.str "x")].filter
          entryHasList).length :=
  C1_amended_one_summary_per_issue _ (by decide)

/-- Claim C4, counterexample.  On the spec's own end-to-end input
`{"ISSUE-1": [{"*": {"reason": "false positive", ...}}]}` the emitted
record carries reason `"No reason provided"` (not `"false positive"`,
nor the claimed `"N/A"` default) and created `"Unknown"` (not `"N/A"`):
the code reads the entry's top level, never the wildcard payload, and
extracts no reason category and no `ignoredBy` data at all. -/
theorem C4_counterexample :
    flatten_ignores_data (.obj [("ISSUE-1", .arr [.obj [("*", .obj
        [("reason", .str "false positive"), ("reasonType", .str "not-vulnerable")])]])]) =
      .ok ⟨1, "ID: ISSUE-1, Reason: No reason provided, Expires: Never, Created: Unknown"⟩ ∧
    ("No reason provided" : String) ≠ "N/A" ∧
    ("No reason provided" : String) ≠ "false positive" ∧
    ("Unknown" : String) ≠ "N/A" :=
  ⟨rfl, by decide, by decide, by decide⟩

/-- Claim C4, amended: for an entry processed by the flattener the fields
are read from the entry's top level (not from a wildcard detail payload),
with reason defaulting to "No reason provided", expiration to "Never" and
creation to "Unknown" when missing; reason category and the ignoredBy
name/contact are not extracted at all. -/
theorem C4_amended_defaults (ignore_id : String) (fields : List (String × Json))
    (hr : dictGet fields "reason" = none) (he : dictGet fields "expires" = none)
    (hc : dictGet fields "created" = none) :
    entry_summary ignore_id (.obj fields) =
      .ok ("ID: " ++ ignore_id ++ ", Reason: " ++ "No reason provided" ++
           ", Expires: " ++ "Never" ++ ", Created: " ++ "Unknown") := by
  simp [entry_summary, dictGetD, hr, he, hc, pyStr]

/-- Claim C4 witness: an entry with none of the three fields set. -/
theorem C4_amended_witness :
    entry_summary "ISSUE-9" (.obj [("disregardIfFixable", .bool false)]) =
      .ok ("ID: " ++ "ISSUE-9" ++ ", Reason: " ++ "No reason provided" ++
           ", Expires: " ++ "Never" ++ ", Created: " ++ "Unknown") :=
  C4_amended_defaults "ISSUE-9" _ rfl rfl rfl

/-- Claim C10: a falsy ignores input returns exactly
`{'total_ignores': 0, 'ignore_details': 'No ignores data available'}`,
and on a non-empty mapping `total_ignores` is the number of issue keys
(`len(ignores_data)`), not the number of individual entries. -/
theorem C10_flattener_totals (d : Json) :
    (pyTruthy d = false → flatten_ignores_data d = .ok ⟨0, "No ignores data available"⟩) ∧
    (∀ fields, d = .obj fields → pyTruthy d = true → fields.all entryHeadOk = true →
      ∃ f, flatten_ignores_data d = .ok f ∧ f.total_ignores = fields.length) := by
  constructor
  · intro hf
    simp [flatten_ignores_data, hf]
  · rintro fields rfl ht hok
    refine ⟨⟨fields.length,
      if (okSummaries fields).isEmpty then "No detailed ignore information"
      else String.intercalate "; " (okSummaries fields)⟩, ?_, rfl⟩
    simp [flatten_ignores_data, ht, flatten_summaries_obj fields hok]

/-- Claim C10 witness: the empty dict is falsy; a one-key two-entry dict
has `total_ignores = 1`, not 2. -/
theorem C10_witness :
    flatten_ignores_data (.obj []) = .ok ⟨0, "No ignores data available"⟩ ∧
    ∃ f, flatten_ignores_data (.obj [("ISSUE-1", .arr [.obj [], .obj []])]) = .ok f ∧
      f.total_ignores = 1 := by
  constructor
  · exact (C10_flattener_totals (.obj [])).1 (by decide)
  · have h := (C10_flattener_totals (.obj [("ISSUE-1", .arr [.obj [], .obj []])])).2
      [("ISSUE-1", Json.arr [.obj [], .obj []])] rfl (by decide) (by decide)
    simpa using h

/-- Claim C2, counterexample.  A first page delivering one organization
followed by a transport error on the second page makes
`get_organizations` return the EMPTY list, not the one entity collected
so far as the claim states. -/
theorem C2_counterexample :
    get_organizations none
        [.ok (.obj [("data", .arr [.str "org-A"]), ("links", .obj [("next", .str "/page2")])]),
         .err] =
      .done [] [⟨base_url ++ "/rest/orgs", some (orgsParams none)⟩,
                ⟨base_url ++ "/page2", none⟩] ∧
    ([] : List Json).length ≠ [Json.str "org-A"].length :=
  ⟨rfl, by decide⟩

/-- Claim C2, amended: on a transport or non-2xx failure at ANY page —
first or later — the paginated fetch returns the empty sequence
(discarding entities already collected); the failure is caught, never
propagated (the fetch still returns normally). -/
theorem C2_error_returns_empty (group_id : Option String) (org_id : Json)
    (pages : List PageResponse) (ents : List Json) (log : List Request) :
    (get_organizations group_id pages = .done ents log →
      PageResponse.err ∈ List.take log.length pages → ents = []) ∧
    (get_projects_for_org org_id pages = .done ents log →
      PageResponse.err ∈ List.take log.length pages → ents = []) ∧
    (∀ rest, get_organizations group_id (.err :: rest) =
      .done [] [⟨base_url ++ "/rest/orgs", some (orgsParams group_id)⟩]) := by
  refine ⟨?_, ?_, fun rest => rfl⟩
  · intro h hmem
    obtain ⟨δ, hδ, -, herr⟩ := paginateGo_err_empty base_url "/orgs" (orgsParams group_id)
      pages _ _ _ _ _ h
    simp only [List.nil_append] at hδ
    subst hδ
    exact herr hmem
  · intro h hmem
    obtain ⟨δ, hδ, -, herr⟩ := paginateGo_err_empty base_url "/projects" projectsParams
      pages _ _ _ _ _ h
    simp only [List.nil_append] at hδ
    subst hδ
    exact herr hmem

/-- Claim C2 witness: a first-page failure returns the empty list. -/
theorem C2_witness :
    (get_organizations (some "g1") [.err] =
        .done [] [⟨base_url ++ "/rest/orgs", some (orgsParams (some "g1"))⟩]) ∧
    ([] : List Json) = [] :=
  ⟨(C2_error_returns_empty (some "g1") (.str "o") [.err] []
      [⟨base_url ++ "/rest/orgs", some (orgsParams (some "g1"))⟩]).2.2 [],
   (C2_error_returns_empty (some "g1") (.str "o") [.err] []
      [⟨base_url ++ "/rest/orgs", some (orgsParams (some "g1"))⟩]).1 rfl
      (by simp)⟩

/-- Claim C6, counterexample.  When the server returns `/rest/orgs` as
the next-page link, the second request's URL again ends with `/orgs` and
the initial query parameters ARE re-appended, where the claim requires
every subsequent request to carry none. -/
theorem C6_counterexample :
    get_organizations none
        [.ok (.obj [("data", .arr []), ("links", .obj [("next", .str "/rest/orgs")])]),
         .ok (.obj [("data", .arr [])])] =
      .done [] [⟨base_url ++ "/rest/orgs", some (orgsParams none)⟩,
                ⟨base_url ++ "/rest/orgs", some (orgsParams none)⟩] ∧
    some (orgsParams none) ≠ (none : Option (List (String × Json))) :=
  ⟨rfl, by simp⟩

/-- Claim C6, amended: a request carries the initial query parameters
exactly when its URL ends with the endpoint suffix (`/orgs` resp.
`/projects`); the first request always does, and a subsequent request
(at `base_url` ++ the server's next path) carries them again only in
that case — so for any next link NOT ending in the suffix nothing is
re-appended. -/
theorem C6_params_only_on_suffix_urls (group_id : Option String) (org_id : Json)
    (pages : List PageResponse) (ents : List Json) (log : List Request) :
    (get_organizations group_id pages = .done ents log →
      (∀ r ∈ log, r.sent = if pyEndsWith r.url "/orgs" then some (orgsParams group_id) else none) ∧
      ∀ resp rest, pages = resp :: rest →
        ∃ tail, log = ⟨base_url ++ "/rest/orgs", some (orgsParams group_id)⟩ :: tail) ∧
    (get_projects_for_org org_id pages = .done ents log →
      (∀ r ∈ log, r.sent = if pyEndsWith r.url "/projects" then some projectsParams else none) ∧
      ∀ resp rest, pages = resp :: rest →
        ∃ tail, log = mkRequest "/projects" projectsParams
          (base_url ++ "/rest/orgs/" ++ pyStr org_id ++ "/projects") :: tail) := by
  constructor
  · intro h
    constructor
    · exact paginateGo_params base_url "/orgs" (orgsParams group_id) pages _ _ _ _ _
        (by intro r hr; cases hr) h
    · rintro resp rest rfl
      obtain ⟨tail, htail⟩ := paginateGo_log_head base_url "/orgs" (orgsParams group_id)
        resp rest _ _ _ _ _ h
      exact ⟨tail, by simpa using htail⟩
  · intro h
    constructor
    · exact paginateGo_params base_url "/projects" projectsParams pages _ _ _ _ _
        (by intro r hr; cases hr) h
    · rintro resp rest rfl
      obtain ⟨tail, htail⟩ := paginateGo_log_head base_url "/projects" projectsParams
        resp rest _ _ _ _ _ h
      exact ⟨tail, by simpa using htail⟩

/-- Claim C6 witness: a single-page run logs exactly the initial request
with the parameters attached. -/
theorem C6_witness :
    (∀ r ∈ [(⟨base_url ++ "/rest/orgs", some (orgsParams none)⟩ : Request)],
      r.sent = if pyEndsWith r.url "/orgs" then some (orgsParams none) else none) ∧
    ∃ tail, [(⟨base_url ++ "/rest/orgs", some (orgsParams none)⟩ : Request)] =
      ⟨base_url ++ "/rest/orgs", some (orgsParams none)⟩ :: tail := by
  have h := (C6_params_only_on_suffix_urls none (.str "o")
      [.ok (.obj [("data", .arr [])])] []
      [⟨base_url ++ "/rest/orgs", some (orgsParams none)⟩]).1 rfl
  exact ⟨h.1, h.2 _ [] rfl⟩

/-- Claim C5: over any run of well-shaped pages (the chain ending at the
first page with falsy `links.next` — absent, `None` or the empty
string), both paginated fetches return exactly the concatenation of the
`data` arrays of the fetched pages, issue one request per fetched page,
and never touch anything beyond the chain, so the returned length is the
sum of the per-page `data` lengths. -/
theorem C5_pagination_length (group_id : Option String) (org_id : Json)
    (gps : List GoodPage) (extra : List PageResponse)
    (h : ∃ p ∈ gps, pyTruthy p.nextVal = false) :
    (∃ log, get_organizations group_id (goodPages gps extra) =
        .done ((consumedPages gps).flatMap GoodPage.data) log ∧
      ((consumedPages gps).flatMap GoodPage.data).length =
        ((consumedPages gps).map (fun p => p.data.length)).sum ∧
      log.length = (consumedPages gps).length) ∧
    (∃ log, get_projects_for_org org_id (goodPages gps extra) =
        .done ((consumedPages gps).flatMap GoodPage.data) log ∧
      ((consumedPages gps).flatMap GoodPage.data).length =
        ((consumedPages gps).map (fun p => p.data.length)).sum ∧
      log.length = (consumedPages gps).length) := by
  constructor
  · obtain ⟨log, hrun, hlen⟩ := paginateGo_good base_url "/orgs" (orgsParams group_id)
      gps extra (base_url ++ "/rest/orgs") [] [] h
    exact ⟨log, by simpa using hrun, by rw [List.length_flatMap]; rfl,
      by simpa using hlen⟩
  · obtain ⟨log, hrun, hlen⟩ := paginateGo_good base_url "/projects" projectsParams
      gps extra (base_url ++ "/rest/orgs/" ++ pyStr org_id ++ "/projects") [] [] h
    exact ⟨log, by simpa using hrun, by rw [List.length_flatMap]; rfl,
      by simpa using hlen⟩

/-- Claim C5 witness: a two-page organizations run whose second page has
an empty-string next link, and a one-page projects run whose page omits
`links` entirely — both terminate with the summed data. -/
theorem C5_witness :
    (∃ log, get_organizations none
        (goodPages [⟨[.str "a", .str "b"], some (.str "/p2")⟩, ⟨[.str "c"], some (.str "")⟩]
          [.err]) =
        .done ((consumedPages [⟨[.str "a", .str "b"], some (.str "/p2")⟩,
            ⟨[.str "c"], some (.str "")⟩]).flatMap GoodPage.data) log ∧
      ((consumedPages [(⟨[.str "a", .str "b"], some (.str "/p2")⟩ : GoodPage),
          ⟨[.str "c"], some (.str "")⟩]).flatMap GoodPage.data).length =
        ((consumedPages [(⟨[.str "a", .str "b"], some (.str "/p2")⟩ : GoodPage),
          ⟨[.str "c"], some (.str "")⟩]).map (fun p => p.data.length)).sum ∧
      log.length = (consumedPages [(⟨[.str "a", .str "b"], some (.str "/p2")⟩ : GoodPage),
          ⟨[.str "c"], some (.str "")⟩]).length) ∧
    (∃ log, get_projects_for_org (.str "o1")
        (goodPages [⟨[.str "p"], none⟩] []) =
        .done ((consumedPages [⟨[.str "p"], none⟩]).flatMap GoodPage.data) log ∧
      ((consumedPages [(⟨[.str "p"], none⟩ : GoodPage)]).flatMap GoodPage.data).length =
        ((consumedPages [(⟨[.str "p"], none⟩ : GoodPage)]).map (fun p => p.data.length)).sum ∧
      log.length = (consumedPages [(⟨[.str "p"], none⟩ : GoodPage)]).length) :=
  ⟨(C5_pagination_length none (.str "o") _ [.err]
      ⟨⟨[.str "c"], some (.str "")⟩, List.Mem.tail _ (List.Mem.head _), rfl⟩).1,
   (C5_pagination_length none (.str "o1") [⟨[.str "p"], none⟩] []
      ⟨⟨[.str "p"], none⟩, List.Mem.head _, rfl⟩).2⟩

/-- Claim C9: one result entry per (valid organization, valid project)
pair, in discovery order, regardless of ignores-fetch outcomes; the
returned length is the total number of valid projects across valid
organizations. -/
theorem C9_one_result_per_valid_pair (env : Env) (h : envWF env = true) :
    ∃ out, process_all_projects env = .ok out ∧
      out.results = specResults env ∧
      out.results.length =
        ((validOrgs env).map (fun o => (validProjects env o).length)).sum :=
  ⟨_, process_all_spec env h, rfl, specResults_length env⟩

/-- Claim C9 witness: one org with two valid projects gives two results. -/
theorem C9_witness :
    ∃ out, process_all_projects envTwoProjects = .ok out ∧
      out.results = specResults envTwoProjects ∧
      out.results.length =
        ((validOrgs envTwoProjects).map
          (fun o => (validProjects envTwoProjects o).length)).sum :=
  C9_one_result_per_valid_pair envTwoProjects (by decide)

/-- Claim C3, counterexample.  One org with two valid projects, the
ignores fetch for the first failing with a transport error: the run
yields TWO result entries (the failed project still contributes one,
carrying `{}`), where the claim says the final count reflects only the
one successful project. -/
theorem C3_counterexample :
    (process_all_projects envErrFetch).map (fun out => out.results.length) = .ok 2 ∧
    envErrFetch.ignores (.str "o1") (.str "p1") = get_project_ignores .err ∧
    (2 : Nat) ≠ 1 :=
  ⟨rfl, rfl, by decide⟩

/-- Claim C3, amended: a project whose ignores fetch fails still
contributes exactly one result entry, carrying whatever
`get_project_ignores` returned (`{}` on a transport error); traversal
continues and the final count equals the number of valid projects
regardless of which fetches succeeded. -/
theorem C3_amended_failed_fetch_still_one_entry (env : Env) (h : envWF env = true) :
    ∃ out, process_all_projects env = .ok out ∧
      (∀ r ∈ out.results, r.ignores = env.ignores r.org_id r.project_id) ∧
      out.results.length =
        ((validOrgs env).map (fun o => (validProjects env o).length)).sum := by
  refine ⟨_, process_all_spec env h, ?_, specResults_length env⟩
  intro r hr
  simp only [specResults, List.mem_flatMap, List.mem_map] at hr
  obtain ⟨o, ho, p, hp, rfl⟩ := hr
  rfl

/-- Claim C3 witness: the failed-fetch environment still yields one
entry per valid project. -/
theorem C3_witness :
    ∃ out, process_all_projects envErrFetch2 = .ok out ∧
      (∀ r ∈ out.results, r.ignores = envErrFetch2.ignores r.org_id r.project_id) ∧
      out.results.length =
        ((validOrgs envErrFetch2).map
          (fun o => (validProjects envErrFetch2 o).length)).sum :=
  C3_amended_failed_fetch_still_one_entry envErrFetch2 (by decide)

/-- Claim C7: with zero organizations the traversal returns the empty
result immediately without raising, and exporting an empty record list
writes nothing at all (no header row) and reports failure without
raising. -/
theorem C7_empty_orgs_and_empty_export (env : Env) (h : env.organizations = []) :
    process_all_projects env = .ok ⟨[], [], []⟩ ∧
    export_to_csv [] = (false, []) := by
  constructor
  · unfold process_all_projects
    simp [h]
  · rfl

/-- Claim C7 witness: the concrete no-organizations environment. -/
theorem C7_witness :
    process_all_projects envNoOrgs = .ok ⟨[], [], []⟩ ∧
    export_to_csv [] = (false, []) :=
  C7_empty_orgs_and_empty_export envNoOrgs rfl

/-- Claim C8, counterexample.  An organization entity lacking an
identifier but carrying a non-dict `attributes` value makes the
traversal raise `AttributeError` (the name lookup
`org.get('attributes', {}).get('name', 'Unknown')` runs before the
missing-id check), where the claim says every id-less entity is skipped
without exception. -/
theorem C8_counterexample :
    process_all_projects envBadOrg = .error "AttributeError" ∧
    entityId (.obj [("attributes", .num 5)]) = .ok .null :=
  ⟨rfl, rfl⟩

/-- Claim C8, amended: every organization or project entity that is a
mapping whose `attributes` field, when present, is itself a mapping and
which lacks a (truthy) identifier is skipped: it triggers no project
fetch, no ignores fetch and no result record, and no exception is
raised; only entities whose `attributes` is present and not a mapping
(or that are not mappings at all) can raise. -/
theorem C8_amended_skip_invalid_entities (env : Env) (h : envWF env = true) :
    ∃ out, process_all_projects env = .ok out ∧
      out.projectFetches = (validOrgs env).map idVal ∧
      out.ignoreFetches = specIgnoreFetches env ∧
      out.results = specResults env :=
  ⟨_, process_all_spec env h, rfl, rfl, rfl⟩

/-- Claim C8 witness: an id-less org and an id-less project are skipped
with no fetches or records, without error. -/
theorem C8_witness :
    ∃ out, process_all_projects envSkip = .ok out ∧
      out.projectFetches = (validOrgs envSkip).map idVal ∧
      out.ignoreFetches = specIgnoreFetches envSkip ∧
      out.results = specResults envSkip :=
  C8_amended_skip_invalid_entities envSkip (by decide)

end SnykIgnores
